import Mathlib

/-!
Verification of the sign-structure calculation core (App.tsx) against its
natural-language specification.

The numerical core of the program is shallowly embedded over exact rationals
(`ℚ`): every JavaScript arithmetic expression is translated literally, with
the source's `Math.max(x, 1e-9)` guard floors kept as `max x eps9`.  A
JavaScript value of `Infinity` (used by the source as an "automatically
failing" pressure or ratio) is modelled as `Option.none` of an `Option ℚ`,
and the source's `isFinite`/comparison tests on it are translated by matching
on the option.  String-keyed catalog records are modelled with a numeric
`name` key (the bolt's M-number), since within each catalog the names are in
one-to-one correspondence with those numbers.
-/

set_option linter.unusedVariables false

/-! ### Wind load model (source: `wind_q0`, `qz`, `Fw_total`) -/

/-- Basic velocity pressure `q0 = 0.613 V²` (N/m²). Source line 74. -/
def wind_q0 (V : ℚ) : ℚ := 0.613 * V * V

/-- Design velocity pressure `qz`.  When the shape coefficient is declared to
include all effects (`cfMode === "CF_INCLUDES_ALL"`), the five modifier
coefficients are treated as 1.0; otherwise they multiply `q0`.
Source lines 1008-1018. -/
def qzOf (cfIncludesAll : Bool) (V Kz Gf Iw Kd Kt : ℚ) : ℚ :=
  let kz := if cfIncludesAll then 1 else Kz
  let gf := if cfIncludesAll then 1 else Gf
  let iw := if cfIncludesAll then 1 else Iw
  let kd := if cfIncludesAll then 1 else Kd
  let kt := if cfIncludesAll then 1 else Kt
  wind_q0 V * kz * gf * iw * kd * kt

/-- Effective panel area `width × height × areaFactor`. Source line 1005. -/
def panelAreaOf (width height areaFactor : ℚ) : ℚ := width * height * areaFactor

/-- Resultant wind force `Fw_total = qz × Cf × panelArea` (N). Source line 1021. -/
def FwTotal (qz shapeCf panelArea : ℚ) : ℚ := qz * shapeCf * panelArea

/-! ### Anchor group model (source: `computeAnchorTensions`, `Tmax`,
`ANCHOR_CALC_QTY`, `V_anchor`, `etaAnchorLinear`) -/

/-- One anchor of the 2×2 arrangement: coordinates in mm and tension in N. -/
structure AnchorT where
  x : ℚ
  y : ℚ
  T : ℚ
deriving DecidableEq

/-- Σy² distribution over the fixed 2×2 anchor arrangement.
`M` is the applied moment (N·m), `anchorGauge`/`anchorPitch` are in mm.
Returns the four per-anchor records (UL, UR, LL, LR) and `Σ(yᵢ/1000)²` (m²).
Source lines 136-157. -/
def computeAnchorTensions (M anchorGauge anchorPitch : ℚ) : List AnchorT × ℚ :=
  let xh := anchorPitch / 2
  let yh := anchorGauge / 2
  let coords : List (ℚ × ℚ) := [(-xh, yh), (xh, yh), (-xh, -yh), (xh, -yh)]
  let sumY2 := coords.foldl (fun s c => s + (c.2 / 1000) ^ 2) 0
  let list := coords.map (fun c =>
    { x := c.1, y := c.2, T := if 0 < sumY2 then M * (c.2 / 1000) / sumY2 else 0 : AnchorT })
  (list, sumY2)

/-- `Tmax = max(0, Tᵢ)` over the four anchors. Source lines 1084-1089. -/
def TmaxOf (M anchorGauge anchorPitch : ℚ) : ℚ :=
  (((computeAnchorTensions M anchorGauge anchorPitch).1.map (fun o => max 0 o.T)).foldl max 0)

/-- `ANCHOR_CALC_QTY = Math.max(2, Math.floor(Number(anchorQty) || 4))`:
the divisor actually used for the per-anchor shear in the interactive check.
A zero (falsy) quantity defaults to 4. Source line 1092. -/
def ANCHOR_CALC_QTY (anchorQty : ℚ) : ℚ :=
  max 2 ((Int.floor (if anchorQty = 0 then 4 else anchorQty) : ℤ) : ℚ)

/-- Per-anchor shear demand in the interactive check:
`V_anchor = Fh / ANCHOR_CALC_QTY`. Source line 1093. -/
def vAnchor (Fh anchorQty : ℚ) : ℚ := Fh / ANCHOR_CALC_QTY anchorQty

/-- The fixed anchor count used by the AI auto-calculation loop
(`ANCHOR_CALC_QTY_FIXED = 4`). Source line 2204. -/
def ANCHOR_CALC_QTY_FIXED : ℚ := 4

/-- The displayed quantities tried by the AI auto-calculation
(`qtyCandidates = [4, 6, 8, 10]`). Source line 2165. -/
def qtyCandidates : List ℚ := [4, 6, 8, 10]

/-- Per-anchor shear used inside the AI auto-calculation quantity loop:
`V_c = Fh / ANCHOR_CALC_QTY_FIXED`, with the tried quantity `qLocal` in scope
but unused. Source lines 2204-2206. -/
def aiAnchorShear (Fh qLocal : ℚ) : ℚ := Fh / ANCHOR_CALC_QTY_FIXED

/-- The tension term of the combined anchor interaction ratio:
`Ta_eff > 0 ? Tmax / Ta_eff : Infinity` (`Option.none` models `Infinity`).
Source lines 1122-1123. -/
def etaTensionTerm (Tmax TaEff : ℚ) : Option ℚ :=
  if 0 < TaEff then some (Tmax / TaEff) else Option.none

/-- The shear term of the combined anchor interaction ratio:
`Va_eff > 0 ? V_anchor / Va_eff : 0`. Source line 1124. -/
def etaShearTerm (V Va : ℚ) : ℚ :=
  if 0 < Va then V / Va else 0

/-- Combined linear interaction ratio
`etaAnchorLinear = (tension term) + (shear term)`; an infinite tension term
makes the whole sum infinite. Source lines 1122-1124. -/
def etaAnchorLinear (Tmax TaEff Va V : ℚ) : Option ℚ :=
  match etaTensionTerm Tmax TaEff with
  | some t => some (t + etaShearTerm V Va)
  | Option.none => Option.none

/-- The pass test `etaAnchorLinear < 1` (false on `Infinity`). Source line 1364. -/
def anchorEtaPass (eta : Option ℚ) : Bool :=
  match eta with
  | some v => decide (v < 1)
  | Option.none => false

/-! ### Foundation stability model (source: `evalFoundation`, lines 1142-1286).

The function closes over the surrounding component state; those closed-over
values are gathered in `FndInputs`.  `M` and `Fh` are the per-column moment
and horizontal force, `WselfPerCol` the per-column superstructure reaction. -/

/-- The guard floor `1e-9` used throughout the source. -/
def eps9 : ℚ := 1 / 1000000000

/-- Representative passive earth-pressure coefficient (`PASSIVE_SOIL.Kp`). -/
def PASSIVE_Kp : ℚ := 3

/-- Ground-contact state of the footing underside. -/
inductive Contact where
  | full
  | part
  | noContact
deriving DecidableEq

/-- Inputs that `evalFoundation` closes over. -/
structure FndInputs where
  isL : Bool
  lt1 : ℚ
  lt2 : ℚ
  concUnitW : ℚ
  soilUnitW : ℚ
  coverT : ℚ
  WselfPerCol : ℚ
  M : ℚ
  Fh : ℚ
  soilQa : ℚ
  gammaBearing : ℚ
  Fc : ℚ
  embedDepth : ℚ
  etaPassive : ℚ
  mu : ℚ
  reqFS_OT : ℚ
  reqFS_SL : ℚ
  allowUpliftOK : Bool
deriving DecidableEq

/-- Effective plan area `A` (the source computes `A` and `A_weight` by the
same formula): rectangular `max(B·D, 1e-9)`, L-shaped band
`max(B·t1 + D·t2 − t1·t2, 1e-9)` with `t1, t2` floored at 0. -/
def fndArea (inp : FndInputs) (B D : ℚ) : ℚ :=
  let t1 := max 0 inp.lt1
  let t2 := max 0 inp.lt2
  if inp.isL then max (B * t1 + D * t2 - t1 * t2) eps9 else max (B * D) eps9

/-- Vertical load `N = Wconc + Wcover + Wself_perCol` (unit weights in kN/m³
are converted with the source's `× 1000`). -/
def fndN (inp : FndInputs) (B D H : ℚ) : ℚ :=
  inp.concUnitW * 1000 * (fndArea inp B D * H)
    + inp.soilUnitW * 1000 * (fndArea inp B D * inp.coverT)
    + inp.WselfPerCol

/-- Eccentricity `e = |M| / max(N, 1e-9)`. -/
def fndE (inp : FndInputs) (B D H : ℚ) : ℚ :=
  |inp.M| / max (fndN inp B D H) eps9

/-- Contact-state selection: full when `e ≤ B/6`, partial when `e < B/2`,
otherwise none. -/
def fndContact (inp : FndInputs) (B D H : ℚ) : Contact :=
  let e := fndE inp B D H
  if e ≤ B / 6 then Contact.full
  else if e < B / 2 then Contact.part
  else Contact.noContact

/-- Effective contact width `b_eff`: `B` under full contact,
`max(3·(B/2 − e), 0)` under partial contact, 0 when contact is lost. -/
def fndBeff (inp : FndInputs) (B D H : ℚ) : ℚ :=
  match fndContact inp B D H with
  | Contact.full => B
  | Contact.part => max (3 * (B / 2 - fndE inp B D H)) 0
  | Contact.noContact => 0

/-- Maximum contact pressure (N/m²); `Option.none` models the source's
`Infinity` in the no-contact state. -/
def fndSigmaMax (inp : FndInputs) (B D H : ℚ) : Option ℚ :=
  let N := fndN inp B D H
  let e := fndE inp B D H
  match fndContact inp B D H with
  | Contact.full => some (N / max (B * D) eps9 * (1 + 6 * e / max B eps9))
  | Contact.part => some (2 * N / max (fndBeff inp B D H * D) eps9)
  | Contact.noContact => Option.none

/-- Minimum contact pressure (N/m²); 0 outside the full-contact state. -/
def fndSigmaMin (inp : FndInputs) (B D H : ℚ) : ℚ :=
  let N := fndN inp B D H
  let e := fndE inp B D H
  match fndContact inp B D H with
  | Contact.full => N / max (B * D) eps9 * (1 - 6 * e / max B eps9)
  | _ => 0

/-- `noUplift` holds only under full contact with `σmin ≥ 0`. -/
def fndNoUplift (inp : FndInputs) (B D H : ℚ) : Bool :=
  match fndContact inp B D H with
  | Contact.full => decide (0 ≤ fndSigmaMin inp B D H)
  | _ => false

/-- Soil-side allowable bearing pressure `soilQa / max(γ, 1e-9)` (kPa). -/
def qaAllowSoil (inp : FndInputs) : ℚ := inp.soilQa / max inp.gammaBearing eps9

/-- Concrete-side allowable bearing pressure `0.25·Fc·1000` (kPa). -/
def qaAllowConc (inp : FndInputs) : ℚ := 0.25 * inp.Fc * 1000

/-- Governing allowable bearing pressure (kPa). -/
def qaAllowFinal (inp : FndInputs) : ℚ := min (qaAllowSoil inp) (qaAllowConc inp)

/-- Bearing check `σmax/1000 ≤ qa_allow_final`, automatically false when
`σmax` is infinite. -/
def fndBearingOK (inp : FndInputs) (B D H : ℚ) : Bool :=
  match fndSigmaMax inp B D H with
  | some s => decide (s / 1000 ≤ qaAllowFinal inp)
  | Option.none => false

/-- Embedment depth floored at 0. -/
def fndZ (inp : FndInputs) : ℚ := max 0 inp.embedDepth

/-- Raw passive resistance `Pp_raw = ½·Kp·γ·D·z²` (0 when `z ≤ 0`). -/
def fndPpRaw (inp : FndInputs) (D : ℚ) : ℚ :=
  if 0 < fndZ inp then
    1 / 2 * PASSIVE_Kp * (inp.soilUnitW * 1000) * D * fndZ inp * fndZ inp
  else 0

/-- Reduced passive resistance `Pp = Pp_raw · ηp`. -/
def fndPp (inp : FndInputs) (D : ℚ) : ℚ := fndPpRaw inp D * inp.etaPassive

/-- Moment of the passive resistance about the toe, arm `z/3`. -/
def fndMPassive (inp : FndInputs) (D : ℚ) : ℚ :=
  if 0 < fndZ inp then fndPp inp D * (fndZ inp / 3) else 0

/-- Overturning lever arm `max(B/2 − e, 0)`. -/
def fndLever (inp : FndInputs) (B D H : ℚ) : ℚ :=
  max (B / 2 - fndE inp B D H) 0

/-- Overturning factor of safety
`FS_OT = (N·leverArm + M_passive) / max(|M|, 1e-9)`. -/
def fndFSOT (inp : FndInputs) (B D H : ℚ) : ℚ :=
  (fndN inp B D H * fndLever inp B D H + fndMPassive inp D) / max |inp.M| eps9

/-- Overturning pass: `FS_OT ≥ required`, and additionally `noUplift` when
uplift is not allowed. -/
def fndOTOK (inp : FndInputs) (B D H : ℚ) : Bool :=
  if inp.allowUpliftOK then decide (inp.reqFS_OT ≤ fndFSOT inp B D H)
  else decide (inp.reqFS_OT ≤ fndFSOT inp B D H) && fndNoUplift inp B D H

/-- Contact fraction `clamp(b_eff/B, 0, 1)` (0 when `B ≤ 0`). -/
def fndContactFrac (inp : FndInputs) (B D H : ℚ) : ℚ :=
  if 0 < B then min (max (fndBeff inp B D H / B) 0) 1 else 0

/-- Sliding factor of safety
`FS_SL = (μ·N·contactFraction + Pp) / max(Fh, 1e-9)`. -/
def fndFSSL (inp : FndInputs) (B D H : ℚ) : ℚ :=
  (inp.mu * (fndN inp B D H * fndContactFrac inp B D H) + fndPp inp D)
    / max inp.Fh eps9

/-- Sliding pass `FS_SL ≥ required`. -/
def fndSLOK (inp : FndInputs) (B D H : ℚ) : Bool :=
  decide (inp.reqFS_SL ≤ fndFSSL inp B D H)

/-- Overall pass of one footing evaluation. -/
def fndOK (inp : FndInputs) (B D H : ℚ) : Bool :=
  fndBearingOK inp B D H && fndOTOK inp B D H && fndSLOK inp B D H

/-- Result record returned by `evalFoundation`. -/
structure FndResult where
  ok : Bool
  N : ℚ
  e : ℚ
  contact : Contact
  sigmaMax : Option ℚ
  sigmaMin : ℚ
  noUplift : Bool
  qaSoil : ℚ
  qaConc : ℚ
  qaFinal : ℚ
  bearingOK : Bool
  leverArm : ℚ
  FS_OT : ℚ
  otOK : Bool
  FS_SL : ℚ
  slOK : Bool
  volume : ℚ
  areaBD : ℚ
  Pp : ℚ
  PpRaw : ℚ
  MPassive : ℚ
  z : ℚ
deriving DecidableEq

/-- The full footing evaluation, assembling the fields exactly as the source
returns them (`volume = A·H`). Source lines 1167-1286. -/
def evalFoundation (inp : FndInputs) (B D H : ℚ) : FndResult :=
  { ok := fndOK inp B D H
    N := fndN inp B D H
    e := fndE inp B D H
    contact := fndContact inp B D H
    sigmaMax := fndSigmaMax inp B D H
    sigmaMin := fndSigmaMin inp B D H
    noUplift := fndNoUplift inp B D H
    qaSoil := qaAllowSoil inp
    qaConc := qaAllowConc inp
    qaFinal := qaAllowFinal inp
    bearingOK := fndBearingOK inp B D H
    leverArm := fndLever inp B D H
    FS_OT := fndFSOT inp B D H
    otOK := fndOTOK inp B D H
    FS_SL := fndFSSL inp B D H
    slOK := fndSLOK inp B D H
    volume := fndArea inp B D * H
    areaBD := fndArea inp B D
    Pp := fndPp inp D
    PpRaw := fndPpRaw inp D
    MPassive := fndMPassive inp D
    z := fndZ inp }

/-! ### Foundation optimizer (source: `handleAIAutoCalc`, step 4, lines
2253-2351).

The source iterates `for (let B = 0.6; B <= 2.0; B += 0.05)` (and likewise
for `D` and `H`); the accumulated floating-point steps are idealised here as
the exact grid `0.6 + 0.05k`.  The final `toFixed(2)` rounding is the
identity on these exact grid values and is omitted. -/

/-- Objective mode: `"BD"` (weighted plan-size proxy) or `"VOL"` (volume). -/
inductive OptMode where
  | BD
  | VOL
deriving DecidableEq

/-- One axis of the search grid: `start + 0.05·k`, `k < n`. -/
def gridList (start : ℚ) (n : ℕ) : List ℚ :=
  (List.range n).map (fun k : ℕ => start + (k : ℚ) * (5 / 100))

/-- All `(B, D, H)` candidates, enumerated ascending `B`, then `D`, then `H`:
`B, D ∈ [0.6, 2.0]`, `H ∈ [0.4, 2.0]`, step 0.05. -/
def gridCandidates : List (ℚ × ℚ × ℚ) :=
  (gridList (6/10) 29).flatMap (fun B =>
    (gridList (6/10) 29).flatMap (fun D =>
      (gridList (4/10) 33).map (fun H => (B, D, H))))

/-- Whether a candidate passes the foundation check. -/
def candPass (inp : FndInputs) (c : ℚ × ℚ × ℚ) : Bool :=
  (evalFoundation inp c.1 c.2.1 c.2.2).ok

/-- Objective value of a candidate: `B·100 + D·10 + H` in `BD` mode,
`r.volume` in `VOL` mode. -/
def candScore (inp : FndInputs) (mode : OptMode) (c : ℚ × ℚ × ℚ) : ℚ :=
  match mode with
  | OptMode.BD => c.1 * 100 + c.2.1 * 10 + c.2.2
  | OptMode.VOL => (evalFoundation inp c.1 c.2.1 c.2.2).volume

/-- The seed score the source assigns before the loop:
`DEFAULT_FOOT.B·100 + DEFAULT_FOOT.D·10 + DEFAULT_FOOT.H` in `BD` mode and
the literal product `0.8·0.8·0.8` in `VOL` mode (not the default candidate's
effective volume). -/
def baselineScore (mode : OptMode) : ℚ :=
  match mode with
  | OptMode.BD => 8/10 * 100 + 8/10 * 10 + 8/10
  | OptMode.VOL => 8/10 * (8/10) * (8/10)

/-- Running state of the passing-candidate scan. -/
structure SelState (α : Type) where
  best : α
  found : Bool
  bestScore : ℚ
deriving DecidableEq

/-- One loop iteration: skip failing candidates; adopt a passing candidate
when nothing was found yet or when its score strictly beats the incumbent. -/
def selStep (pass : α → Bool) (sc : α → ℚ) (st : SelState α) (c : α) : SelState α :=
  if pass c then
    if st.found = false ∨ sc c < st.bestScore then ⟨c, true, sc c⟩ else st
  else st

/-- The whole scan, a left fold of `selStep` in enumeration order. -/
def selRun (pass : α → Bool) (sc : α → ℚ) (st : SelState α) (l : List α) : SelState α :=
  l.foldl (selStep pass sc) st

/-- One iteration of the rescue scan: keep the first candidate, then replace
only on a strictly greater score. -/
def rescStep (sc : α → ℚ) (acc : Option (α × ℚ)) (c : α) : Option (α × ℚ) :=
  match acc with
  | Option.none => some (c, sc c)
  | some (b, s) => if s < sc c then some (c, sc c) else some (b, s)

/-- The rescue scan over a list. -/
def rescRun (sc : α → ℚ) (l : List α) : Option (α × ℚ) :=
  l.foldl (rescStep sc) Option.none

/-- Rescue ranking score: `min(FS_OT/req, FS_SL/req, allowable/σmax)·100000 −
size penalty`; an infinite `σmax` gives a bearing achievement ratio of 0
(JavaScript `finite / Infinity = 0`). -/
def rescueScore (inp : FndInputs) (mode : OptMode) (c : ℚ × ℚ × ℚ) : ℚ :=
  let r := evalFoundation inp c.1 c.2.1 c.2.2
  let rateOT := r.FS_OT / max inp.reqFS_OT eps9
  let rateSL := r.FS_SL / max inp.reqFS_SL eps9
  let rateBE :=
    match r.sigmaMax with
    | some s => r.qaFinal * 1000 / max s eps9
    | Option.none => 0
  let rateMin := min rateOT (min rateSL rateBE)
  let sizePenalty :=
    match mode with
    | OptMode.VOL => c.1 * c.2.1 * c.2.2
    | OptMode.BD => c.1 * 100 + c.2.1 * 10 + c.2.2
  rateMin * 100000 - sizePenalty

/-- Outcome of the optimizer: the adopted footing and whether it came from
the rescue (best-effort, non-passing) ranking. -/
structure OptResult where
  B : ℚ
  D : ℚ
  H : ℚ
  rescued : Bool
deriving DecidableEq

/-- The footing-size optimizer: seed with the default `(0.8, 0.8, 0.8)`
(found only if it passes) and the mode's baseline score, scan the grid, and
adopt the scan's best when anything passed; otherwise run the rescue ranking.
`Option.none` is unreachable since the grid is nonempty. -/
def foundationOptimize (inp : FndInputs) (mode : OptMode) : Option OptResult :=
  let init : SelState (ℚ × ℚ × ℚ) :=
    ⟨(8/10, 8/10, 8/10), (evalFoundation inp (8/10) (8/10) (8/10)).ok, baselineScore mode⟩
  let fin := selRun (candPass inp) (candScore inp mode) init gridCandidates
  if fin.found then some ⟨fin.best.1, fin.best.2.1, fin.best.2.2, false⟩
  else
    match rescRun (rescueScore inp mode) gridCandidates with
    | some (b, _) => some ⟨b.1, b.2.1, b.2.2, true⟩
    | Option.none => Option.none

/-- A concrete input set used to exercise the optimizer: an L-shaped footing
(band widths t1 = 10 m, t2 = 0.1 m), no moment and no horizontal force, very
permissive bearing limits.  Under these inputs every grid candidate passes
and every candidate's volume exceeds the VOL-mode baseline 0.512. -/
def E4 : FndInputs :=
  { isL := true
    lt1 := 10
    lt2 := 1/10
    concUnitW := 24
    soilUnitW := 18
    coverT := 0
    WselfPerCol := 0
    M := 0
    Fh := 0
    soilQa := 10000000
    gammaBearing := 1
    Fc := 100000
    embedDepth := 0
    etaPassive := 1/2
    mu := 1/2
    reqFS_OT := 3/2
    reqFS_SL := 3/2
    allowUpliftOK := false }

/-! ### Configuration import, anchor-related slice (source: `applyConfig`,
lines 1574-1700).

`applyConfig` runs inside one React render: every `setX` call writes the new
state, but reads of the closed-over state variables (`signType`, `anchors`,
`anchor`) still see the values from before the call.  The source itself
mitigates this for the sign type with the local `signTypeFromCfg`; for the
anchor it does not, so the embedment clamp at the end reads the pre-import
`anchor`.  The embedding below threads an explicit state record and writes
fields in the source's order, reading stale values exactly where the source's
closure does.  A configuration field is `some v` when the source's
`Number.isFinite` / string test accepts it. -/

/-- Sign type tag from the source (freestanding, projecting, wall). -/
inductive SignKind where
  | freestanding
  | projecting
  | wall
deriving DecidableEq

/-- Anchor catalog record.  `name` is the bolt's M-number standing in for the
source's unique name string. -/
structure AnchorSpec where
  name : ℕ
  d : ℚ
  Ta : ℚ
  Va : ℚ
  minE : Option ℚ
  minS : Option ℚ
  hefRec : Option ℚ
deriving DecidableEq

/-- The fixed regulated catalog for free-standing signs (`ABR_ANCHORS`),
with `hefRec = 20d` attached by the source's trailing `map`. -/
def ABR_ANCHORS : List AnchorSpec :=
  [ { name := 16, d := 16, Ta := 36900, Va := 21300, minE := Option.none, minS := Option.none, hefRec := some 320 },
    { name := 20, d := 20, Ta := 57600, Va := 33200, minE := Option.none, minS := Option.none, hefRec := some 400 },
    { name := 22, d := 22, Ta := 71200, Va := 41100, minE := Option.none, minS := Option.none, hefRec := some 440 },
    { name := 24, d := 24, Ta := 83000, Va := 47900, minE := Option.none, minS := Option.none, hefRec := some 480 },
    { name := 27, d := 27, Ta := 108000, Va := 62400, minE := Option.none, minS := Option.none, hefRec := some 540 },
    { name := 30, d := 30, Ta := 132000, Va := 76200, minE := Option.none, minS := Option.none, hefRec := some 600 },
    { name := 33, d := 33, Ta := 163000, Va := 94100, minE := Option.none, minS := Option.none, hefRec := some 660 },
    { name := 36, d := 36, Ta := 192000, Va := 111000, minE := Option.none, minS := Option.none, hefRec := some 720 },
    { name := 39, d := 39, Ta := 229000, Va := 132000, minE := Option.none, minS := Option.none, hefRec := some 780 },
    { name := 42, d := 42, Ta := 263000, Va := 152000, minE := Option.none, minS := Option.none, hefRec := some 840 },
    { name := 45, d := 45, Ta := 282000, Va := 163000, minE := Option.none, minS := Option.none, hefRec := some 900 },
    { name := 48, d := 48, Ta := 316000, Va := 182000, minE := Option.none, minS := Option.none, hefRec := some 960 } ]

/-- JavaScript falsy-or fallback `a || b` for an optional number. -/
def orFalsy (a : Option ℚ) (b : ℚ) : ℚ :=
  match a with
  | some v => if v = 0 then b else v
  | Option.none => b

/-- Minimum embedment computed in the anchor-pick block of `applyConfig`
(and in `hefReq` of the interactive check): `d·20` for free-standing signs,
else `hefRec || d·10`. Source lines 1633-1637 and 1117-1120. -/
def hefMinPick (st : SignKind) (a : AnchorSpec) : ℚ :=
  match st with
  | SignKind.freestanding => a.d * 20
  | _ => orFalsy a.hefRec (a.d * 10)

/-- Minimum embedment computed in the embedment clamp of `applyConfig`:
`(anchor?.d || 27)·20` for free-standing signs, else
`anchor?.hefRec || (anchor?.d || 16)·10`. Source lines 1674-1677. -/
def hefMinClamp (st : SignKind) (a : AnchorSpec) : ℚ :=
  match st with
  | SignKind.freestanding => (if a.d = 0 then 27 else a.d) * 20
  | _ => orFalsy a.hefRec ((if a.d = 0 then 16 else a.d) * 10)

/-- The anchor-related slice of the component state. -/
structure AnchorState where
  signType : SignKind
  anchors : List AnchorSpec
  anchor : AnchorSpec
  anchorEmbed : ℚ
deriving DecidableEq

/-- The anchor-related slice of an imported configuration. -/
structure CfgSlice where
  signTypeF : Option SignKind
  anchors : Option (List AnchorSpec)
  anchorName : Option ℕ
  anchorEmbed : Option ℚ
deriving DecidableEq

/-- The anchor-related writes of `applyConfig`, in source order:
sign type, non-freestanding catalog, anchor pick by name (which also resets
the embedment to the picked anchor's minimum), then the imported-embedment
clamp — whose minimum is computed from the PRE-import `anchor` state (the
stale closure value), not from the just-picked anchor.
Source lines 1590-1679. -/
def applyConfigAnchors (st : AnchorState) (cfg : CfgSlice) : AnchorState :=
  let signTypeFromCfg := cfg.signTypeF.getD st.signType
  let st1 :=
    match cfg.signTypeF with
    | some s => { st with signType := s }
    | Option.none => st
  let st2 :=
    match cfg.anchors with
    | some l => if l = [] then st1 else { st1 with anchors := l }
    | Option.none => st1
  let st3 :=
    match cfg.anchorName with
    | some nm =>
      let list :=
        match signTypeFromCfg with
        | SignKind.freestanding => ABR_ANCHORS
        | _ =>
          match cfg.anchors with
          | some l => l
          | Option.none => st.anchors
      match (list.find? (fun a => a.name = nm)).orElse (fun _ => list.head?) with
      | some pick =>
        { st2 with anchor := pick, anchorEmbed := hefMinPick signTypeFromCfg pick }
      | Option.none => st2
    | Option.none => st2
  match cfg.anchorEmbed with
  | some v =>
    { st3 with anchorEmbed := max (hefMinClamp signTypeFromCfg st.anchor) v }
  | Option.none => st3

/-- Pre-import state for the C7 scenario: a free-standing sign with the
M16 ABR anchor selected and its minimum embedment accepted. -/
def C7state : AnchorState :=
  { signType := SignKind.freestanding
    anchors := []
    anchor := { name := 16, d := 16, Ta := 36900, Va := 21300,
                minE := Option.none, minS := Option.none, hefRec := some 320 }
    anchorEmbed := 320 }

/-- Imported configuration for the C7 scenario: selects the M48 ABR anchor
(enforced minimum 20·48 = 960 mm) and carries an accepted embedment of
500 mm. -/
def C7cfg : CfgSlice :=
  { signTypeF := Option.none
    anchors := Option.none
    anchorName := some 48
    anchorEmbed := some 500 }

/-- A concrete rectangular footing input set used as the C3 witness:
1 m cube, unit weights 24/18 kN/m³, cover 0.3 m, reaction 2450 N,
moment 1000 N·m. -/
def C3inp : FndInputs :=
  { isL := false
    lt1 := 0
    lt2 := 0
    concUnitW := 24
    soilUnitW := 18
    coverT := 3/10
    WselfPerCol := 2450
    M := 1000
    Fh := 1000
    soilQa := 150
    gammaBearing := 1
    Fc := 21
    embedDepth := 1/2
    etaPassive := 1/2
    mu := 1/2
    reqFS_OT := 3/2
    reqFS_SL := 3/2
    allowUpliftOK := false }

/-! ## Claim theorems -/

/-- Claim C5, counterexample: with V = 34 m/s, all five modifiers 1.0, shape
coefficient 2.0 and panel 3.0 × 2.0 m (area factor 1.0), the resultant wind
force computed by the code is not 8503.2 N (it is 0.613·34²·2·6 = 8503.536 N,
whereas 8503.2 comes from rounding q0 to 708.6 Pa before multiplying). -/
theorem C5_counterexample :
    FwTotal (qzOf false 34 1 1 1 1 1) 2 (panelAreaOf 3 2 1) ≠ (8503.2 : ℚ) := by
  norm_num [FwTotal, qzOf, wind_q0, panelAreaOf]

/-- Claim C5, amended: with V = 34 m/s, all five modifiers 1.0, shape
coefficient 2.0 and effective panel area 6.0 m², the basic velocity pressure
is q0 = 0.613·34² = 708.628 Pa, the design velocity pressure equals q0, and
the resultant wind force is 8503.536 N. -/
theorem C5_amended :
    wind_q0 34 = (708.628 : ℚ)
      ∧ qzOf false 34 1 1 1 1 1 = wind_q0 34
      ∧ FwTotal (qzOf false 34 1 1 1 1 1) 2 (panelAreaOf 3 2 1) = (8503.536 : ℚ) := by
  refine ⟨?_, ?_, ?_⟩ <;> norm_num [FwTotal, qzOf, wind_q0, panelAreaOf]

/-- Claim C2, counterexample: with gauge 200 mm and pitch 160 mm the code's
Σy² is 0.04 m² (four offsets of ±0.1 m), not 0.02 m², and at moment M = 1 the
maximum anchor tension is 2.5, not 5. -/
theorem C2_counterexample :
    (computeAnchorTensions 1 200 160).2 = (0.04 : ℚ)
      ∧ (computeAnchorTensions 1 200 160).2 ≠ (0.02 : ℚ)
      ∧ TmaxOf 1 200 160 = (2.5 : ℚ)
      ∧ TmaxOf 1 200 160 ≠ 5 * 1 := by
  refine ⟨?_, ?_, ?_, ?_⟩ <;> norm_num [computeAnchorTensions, TmaxOf]

/-- Claim C2, amended: for the four-anchor group with gauge 200 mm and pitch
160 mm, Σy² = 4·(0.1²) = 0.04 m², every upper-row anchor tension is
M·0.1/0.04 = 2.5·M for every applied moment M, and for M ≥ 0 the maximum
anchor tension `Tmax` equals 2.5·M. -/
theorem C2_amended (M : ℚ) :
    ((computeAnchorTensions M 200 160).1.map AnchorT.T)
        = [2.5 * M, 2.5 * M, -(2.5 * M), -(2.5 * M)]
      ∧ (computeAnchorTensions M 200 160).2 = (0.04 : ℚ)
      ∧ (0 ≤ M → TmaxOf M 200 160 = 2.5 * M) := by
  refine ⟨?_, ?_, fun hM => ?_⟩
  · norm_num [computeAnchorTensions]
    ring_nf
    norm_num
  · norm_num [computeAnchorTensions]
  · norm_num [TmaxOf, computeAnchorTensions]
    rw [show M * (1 / 10) / (1 / 25) = 5 / 2 * M from by ring,
      show -(M * (1 / 10)) / (1 / 25) = -(5 / 2 * M) from by ring,
      sup_eq_right.mpr (by nlinarith : (0 : ℚ) ≤ 5 / 2 * M),
      sup_eq_left.mpr (by nlinarith : -(5 / 2 * M) ≤ (0 : ℚ)),
      sup_eq_left.mpr (by nlinarith : (0 : ℚ) ≤ 5 / 2 * M)]

/-- Witness for C2_amended at M = 2. -/
theorem C2_amended_witness :
    (0 : ℚ) ≤ 2 ∧ TmaxOf 2 200 160 = 2.5 * 2 :=
  ⟨by norm_num, (C2_amended 2).2.2 (by norm_num)⟩

/-- Claim C6: for every moment M and positive gauge and pitch, the four
per-anchor tensions of the Σy² distribution reconstruct the applied moment
exactly: Σ Tᵢ·(yᵢ/1000) = M (offsets converted from mm to m as in the code). -/
theorem C6_moment_consistency (M g p : ℚ) (hg : 0 < g) (hp : 0 < p) :
    (((computeAnchorTensions M g p).1.map (fun a => a.T * (a.y / 1000))).sum) = M := by
  have hg0 : g ≠ 0 := ne_of_gt hg
  have hpos : (0 : ℚ) <
      0 + (g / 2 / 1000) ^ 2 + (g / 2 / 1000) ^ 2 + (-(g / 2) / 1000) ^ 2
        + (-(g / 2) / 1000) ^ 2 := by positivity
  simp only [computeAnchorTensions, List.foldl, List.map, List.sum_cons, List.sum_nil]
  rw [if_pos hpos]
  field_simp
  ring

/-- Witness for C6_moment_consistency at M = 7, gauge 200, pitch 160. -/
theorem C6_moment_consistency_witness :
    (0 : ℚ) < 200 ∧ (0 : ℚ) < 160
      ∧ (((computeAnchorTensions 7 200 160).1.map (fun a => a.T * (a.y / 1000))).sum) = 7 :=
  ⟨by norm_num, by norm_num,
    C6_moment_consistency 7 200 160 (by norm_num) (by norm_num)⟩

/-- Claim C9: with anchor gauge 0 the distribution's Σy² is 0 and, instead of
dividing by zero, all four anchor tensions are returned as 0; consequently
`Tmax = 0` for every moment M and every pitch. -/
theorem C9_zero_gauge (M p : ℚ) :
    ((computeAnchorTensions M 0 p).1.map AnchorT.T) = [0, 0, 0, 0]
      ∧ (computeAnchorTensions M 0 p).2 = 0
      ∧ TmaxOf M 0 p = 0 := by
  refine ⟨?_, ?_, ?_⟩ <;> norm_num [computeAnchorTensions, TmaxOf]

/-- Claim C1, counterexample: with per-column force 12 N and user-selected
anchor quantity 6, the interactive check's per-anchor shear `V_anchor` is
12/6 = 2 N, not 12/4 = 3 N — the selected quantity does change the shear
distribution. -/
theorem C1_counterexample :
    vAnchor 12 6 = 2 ∧ vAnchor 12 6 ≠ 12 / 4 := by
  constructor <;> norm_num [vAnchor, ANCHOR_CALC_QTY]

/-- Claim C1, amended: the division by a fixed count of 4 anchors holds in
the AI auto-calculation loop for every tried quantity (the tried quantity is
cosmetic there), but in the interactive anchor-group check the per-anchor
shear is the per-column force divided by `max(2, ⌊quantity⌋)` (a zero
quantity defaulting to 4): quantity 4 gives Fh/4, quantity 6 gives Fh/6. -/
theorem C1_amended (Fh q : ℚ) (hq : q ∈ qtyCandidates) :
    aiAnchorShear Fh q = Fh / 4
      ∧ vAnchor Fh 4 = Fh / 4
      ∧ vAnchor Fh 6 = Fh / 6 := by
  refine ⟨?_, ?_, ?_⟩ <;>
    norm_num [aiAnchorShear, ANCHOR_CALC_QTY_FIXED, vAnchor, ANCHOR_CALC_QTY]

/-- Witness for C1_amended at Fh = 12, q = 6. -/
theorem C1_amended_witness :
    (6 : ℚ) ∈ qtyCandidates ∧ vAnchor 12 6 = 12 / 6 :=
  ⟨by norm_num [qtyCandidates], (C1_amended 12 6 (by norm_num [qtyCandidates])).2.2⟩

/-- Claim C10: in the combined anchor interaction ratio, a non-positive
effective tension capacity makes the whole ratio infinite (`Option.none`),
which fails the `< 1` pass test; a non-positive steel shear capacity makes
the shear term 0, so the ratio is the same as with zero shear demand — the
shear contribution never causes failure when `Va ≤ 0`. -/
theorem C10_eta_guards (Tm TaEff Va V : ℚ) :
    (TaEff ≤ 0 →
        etaAnchorLinear Tm TaEff Va V = Option.none
          ∧ anchorEtaPass (etaAnchorLinear Tm TaEff Va V) = false)
      ∧ (Va ≤ 0 →
        etaShearTerm V Va = 0
          ∧ etaAnchorLinear Tm TaEff Va V = etaAnchorLinear Tm TaEff Va 0) := by
  constructor
  · intro hT
    have : ¬ (0 : ℚ) < TaEff := not_lt.mpr hT
    simp [etaAnchorLinear, etaTensionTerm, this, anchorEtaPass]
  · intro hV
    have hv : ¬ (0 : ℚ) < Va := not_lt.mpr hV
    simp [etaAnchorLinear, etaTensionTerm, etaShearTerm, hv]

/-- Witness for C10_eta_guards at Tm = 5, TaEff = 0, Va = −1, V = 7. -/
theorem C10_eta_guards_witness :
    (0 : ℚ) ≤ 0 ∧ (-1 : ℚ) ≤ 0
      ∧ etaAnchorLinear 5 0 (-1) 7 = Option.none
      ∧ etaShearTerm 7 (-1) = 0 :=
  ⟨le_refl 0, by norm_num,
    ((C10_eta_guards 5 0 (-1) 7).1 (le_refl 0)).1,
    ((C10_eta_guards 5 0 (-1) 7).2 (by norm_num)).1⟩

/-- With the vertical load at or above the guard floor, the code's
eccentricity is exactly `|M| / N`. -/
theorem fndE_eq (inp : FndInputs) (B D H : ℚ) (hN : eps9 ≤ fndN inp B D H) :
    fndE inp B D H = |inp.M| / fndN inp B D H := by
  unfold fndE
  rw [max_eq_left hN]

/-- The contact selection written out on `|M| / N`. -/
theorem fndContact_eq (inp : FndInputs) (B D H : ℚ) (hN : eps9 ≤ fndN inp B D H) :
    fndContact inp B D H =
      (if |inp.M| / fndN inp B D H ≤ B / 6 then Contact.full
        else if |inp.M| / fndN inp B D H < B / 2 then Contact.part
        else Contact.noContact) := by
  unfold fndContact
  rw [fndE_eq inp B D H hN]

/-- Claim C3: with the vertical load and the geometric denominators at or
above the code's guard floors, the footing evaluation selects exactly one of
three contact states from `e = |M|/N`: full when `e ≤ B/6` with
`σmax/σmin = (N/(B·D))·(1 ± 6e/B)` and no-uplift holding iff `σmin ≥ 0`;
partial when `B/6 < e < B/2` with `σmax = 2N/(b_eff·D)`, `b_eff = 3(B/2 − e)`,
`σmin = 0` and no uplift-freedom; none when `e ≥ B/2`, with an infinite
`σmax` and automatic bearing (and overall) failure. -/
theorem C3_contact_states (inp : FndInputs) (B D H : ℚ)
    (hN : eps9 ≤ fndN inp B D H) (hB : eps9 ≤ B) (hBD : eps9 ≤ B * D) :
    ((evalFoundation inp B D H).contact = Contact.full
        ↔ |inp.M| / fndN inp B D H ≤ B / 6)
      ∧ ((evalFoundation inp B D H).contact = Contact.part
        ↔ B / 6 < |inp.M| / fndN inp B D H ∧ |inp.M| / fndN inp B D H < B / 2)
      ∧ ((evalFoundation inp B D H).contact = Contact.noContact
        ↔ B / 2 ≤ |inp.M| / fndN inp B D H)
      ∧ (|inp.M| / fndN inp B D H ≤ B / 6 →
        (evalFoundation inp B D H).sigmaMax
            = some (fndN inp B D H / (B * D) * (1 + 6 * (|inp.M| / fndN inp B D H) / B))
          ∧ (evalFoundation inp B D H).sigmaMin
            = fndN inp B D H / (B * D) * (1 - 6 * (|inp.M| / fndN inp B D H) / B)
          ∧ ((evalFoundation inp B D H).noUplift = true
            ↔ 0 ≤ (evalFoundation inp B D H).sigmaMin))
      ∧ (B / 6 < |inp.M| / fndN inp B D H → |inp.M| / fndN inp B D H < B / 2 →
        eps9 ≤ 3 * (B / 2 - |inp.M| / fndN inp B D H) * D →
        (evalFoundation inp B D H).sigmaMax
            = some (2 * fndN inp B D H / (3 * (B / 2 - |inp.M| / fndN inp B D H) * D))
          ∧ (evalFoundation inp B D H).sigmaMin = 0
          ∧ (evalFoundation inp B D H).noUplift = false)
      ∧ (B / 2 ≤ |inp.M| / fndN inp B D H →
        (evalFoundation inp B D H).sigmaMax = Option.none
          ∧ (evalFoundation inp B D H).bearingOK = false
          ∧ (evalFoundation inp B D H).ok = false
          ∧ (evalFoundation inp B D H).noUplift = false) := by
  have hBpos : (0 : ℚ) < B := lt_of_lt_of_le (by norm_num [eps9]) hB
  have hC := fndContact_eq inp B D H hN
  have hEq := fndE_eq inp B D H hN
  simp only [evalFoundation]
  refine ⟨?_, ?_, ?_, ?_, ?_, ?_⟩
  · rw [hC]
    split
    · simp_all
    · split <;> simp_all
  · rw [hC]
    split
    · rename_i h
      simp only [iff_iff_implies_and_implies]
      constructor
      · intro hcon
        exact absurd hcon (by decide)
      · intro hcon
        exact absurd h (not_le.mpr hcon.1)
    · split <;> rename_i h h2
      · simp only [true_iff]
        exact ⟨not_le.mp h, h2⟩
      · simp only [iff_iff_implies_and_implies]
        constructor
        · intro hcon
          exact absurd hcon (by decide)
        · intro hcon
          exact absurd hcon.2 h2
  · rw [hC]
    split
    · rename_i h
      constructor
      · intro hcon
        exact absurd hcon (by decide)
      · intro hcon
        exact absurd (le_trans hcon (le_of_lt (by linarith))) (not_le.mpr (lt_of_le_of_lt h (by linarith)))
    · split <;> rename_i h h2
      · constructor
        · intro hcon
          exact absurd hcon (by decide)
        · intro hcon
          exact absurd h2 (not_lt.mpr hcon)
      · simp only [true_iff]
        exact not_lt.mp h2
  · intro hfull
    have hcon : fndContact inp B D H = Contact.full := by
      rw [hC, if_pos hfull]
    refine ⟨?_, ?_, ?_⟩
    · unfold fndSigmaMax
      rw [hcon]
      simp only
      rw [hEq, max_eq_left hBD, max_eq_left hB]
    · unfold fndSigmaMin
      rw [hcon]
      simp only
      rw [hEq, max_eq_left hBD, max_eq_left hB]
    · unfold fndNoUplift
      rw [hcon]
      simp [decide_eq_true_iff]
  · intro hlo hhi hbe
    have hcon : fndContact inp B D H = Contact.part := by
      rw [hC, if_neg (not_le.mpr hlo), if_pos hhi]
    have hBeff : fndBeff inp B D H = 3 * (B / 2 - |inp.M| / fndN inp B D H) := by
      unfold fndBeff
      rw [hcon]
      simp only
      rw [hEq]
      exact max_eq_left (by nlinarith)
    refine ⟨?_, ?_, ?_⟩
    · unfold fndSigmaMax
      rw [hcon]
      simp only
      rw [hBeff, max_eq_left hbe]
    · unfold fndSigmaMin
      rw [hcon]
    · unfold fndNoUplift
      rw [hcon]
  · intro hno
    have hcon : fndContact inp B D H = Contact.noContact := by
      rw [hC, if_neg (not_le.mpr (lt_of_lt_of_le (by linarith) hno)),
        if_neg (not_lt.mpr hno)]
    have hsig : fndSigmaMax inp B D H = Option.none := by
      unfold fndSigmaMax
      rw [hcon]
    have hbear : fndBearingOK inp B D H = false := by
      unfold fndBearingOK
      rw [hsig]
    refine ⟨hsig, hbear, ?_, ?_⟩
    · unfold fndOK
      rw [hbear]
      simp
    · unfold fndNoUplift
      rw [hcon]

/-- Witness for C3_contact_states: the concrete footing `C3inp` at
B = D = H = 1 m; the hypotheses hold and the full-contact trichotomy arm is
exercised. -/
theorem C3_contact_states_witness :
    eps9 ≤ fndN C3inp 1 1 1
      ∧ ((evalFoundation C3inp 1 1 1).contact = Contact.full
        ↔ |C3inp.M| / fndN C3inp 1 1 1 ≤ 1 / 6) :=
  ⟨by norm_num [fndN, fndArea, eps9, C3inp],
    (C3_contact_states C3inp 1 1 1 (by norm_num [fndN, fndArea, eps9, C3inp])
      (by norm_num [eps9]) (by norm_num [eps9])).1⟩

/-- The guard floor is positive. -/
theorem eps9_pos : (0 : ℚ) < eps9 := by norm_num [eps9]

/-- The effective plan area is monotone in the footing width B
(for nonnegative depth D). -/
theorem fndArea_mono (inp : FndInputs) {B1 B2 D : ℚ} (h : B1 ≤ B2) (hD : 0 ≤ D) :
    fndArea inp B1 D ≤ fndArea inp B2 D := by
  unfold fndArea
  have ht1 : (0 : ℚ) ≤ max 0 inp.lt1 := le_max_left 0 _
  split
  · exact max_le_max (by nlinarith) le_rfl
  · exact max_le_max (mul_le_mul_of_nonneg_right h hD) le_rfl

/-- The effective plan area is at least the guard floor. -/
theorem fndArea_ge (inp : FndInputs) (B D : ℚ) : eps9 ≤ fndArea inp B D := by
  unfold fndArea
  split <;> exact le_max_right _ _

/-- The vertical load N is monotone in B under nonnegative unit weights,
cover, thickness and reaction. -/
theorem fndN_mono (inp : FndInputs) {B1 B2 D H : ℚ} (h : B1 ≤ B2) (hD : 0 ≤ D)
    (hH : 0 ≤ H) (hc : 0 ≤ inp.concUnitW) (hs : 0 ≤ inp.soilUnitW)
    (hcov : 0 ≤ inp.coverT) :
    fndN inp B1 D H ≤ fndN inp B2 D H := by
  unfold fndN
  have hA := fndArea_mono inp h hD
  have h1 : inp.concUnitW * 1000 * (fndArea inp B1 D * H)
      ≤ inp.concUnitW * 1000 * (fndArea inp B2 D * H) :=
    mul_le_mul_of_nonneg_left (mul_le_mul_of_nonneg_right hA hH) (by positivity)
  have h2 : inp.soilUnitW * 1000 * (fndArea inp B1 D * inp.coverT)
      ≤ inp.soilUnitW * 1000 * (fndArea inp B2 D * inp.coverT) :=
    mul_le_mul_of_nonneg_left (mul_le_mul_of_nonneg_right hA hcov) (by positivity)
  linarith

/-- The vertical load N is nonnegative under the same sign conditions. -/
theorem fndN_nonneg (inp : FndInputs) {B D H : ℚ} (hD : 0 ≤ D) (hH : 0 ≤ H)
    (hc : 0 ≤ inp.concUnitW) (hs : 0 ≤ inp.soilUnitW) (hcov : 0 ≤ inp.coverT)
    (hW : 0 ≤ inp.WselfPerCol) :
    0 ≤ fndN inp B D H := by
  unfold fndN
  have hA : (0 : ℚ) ≤ fndArea inp B D := le_trans (le_of_lt eps9_pos) (fndArea_ge inp B D)
  have h1 : (0 : ℚ) ≤ inp.concUnitW * 1000 * (fndArea inp B D * H) := by positivity
  have h2 : (0 : ℚ) ≤ inp.soilUnitW * 1000 * (fndArea inp B D * inp.coverT) := by positivity
  linarith

/-- Claim C8: for footing widths B1 ≤ B2 with all other inputs fixed (and
nonnegative unit weights, cover, depth, thickness and reaction), the
overturning factor of safety is monotone non-decreasing in B. -/
theorem C8_FSOT_monotone (inp : FndInputs) (B1 B2 D H : ℚ)
    (h12 : B1 ≤ B2) (hD : 0 ≤ D) (hH : 0 ≤ H)
    (hc : 0 ≤ inp.concUnitW) (hs : 0 ≤ inp.soilUnitW) (hcov : 0 ≤ inp.coverT)
    (hW : 0 ≤ inp.WselfPerCol) :
    (evalFoundation inp B1 D H).FS_OT ≤ (evalFoundation inp B2 D H).FS_OT := by
  simp only [evalFoundation]
  unfold fndFSOT
  have hNm := fndN_mono inp h12 hD hH hc hs hcov
  have hN1 : 0 ≤ fndN inp B1 D H := fndN_nonneg inp hD hH hc hs hcov hW
  have hN2 : 0 ≤ fndN inp B2 D H := le_trans hN1 hNm
  have hmaxm : max (fndN inp B1 D H) eps9 ≤ max (fndN inp B2 D H) eps9 :=
    max_le_max hNm le_rfl
  have hmax1 : (0 : ℚ) < max (fndN inp B1 D H) eps9 :=
    lt_of_lt_of_le eps9_pos (le_max_right _ _)
  have hE : fndE inp B2 D H ≤ fndE inp B1 D H := by
    unfold fndE
    exact div_le_div_of_nonneg_left (abs_nonneg _) hmax1 hmaxm
  have hL1 : 0 ≤ fndLever inp B1 D H := le_max_right _ _
  have hLm : fndLever inp B1 D H ≤ fndLever inp B2 D H := by
    unfold fndLever
    exact max_le_max (by linarith) le_rfl
  have hnum : fndN inp B1 D H * fndLever inp B1 D H
      ≤ fndN inp B2 D H * fndLever inp B2 D H :=
    mul_le_mul hNm hLm hL1 hN2
  have hden : (0 : ℚ) < max |inp.M| eps9 :=
    lt_of_lt_of_le eps9_pos (le_max_right _ _)
  exact (div_le_div_iff_of_pos_right hden).mpr (by linarith)

/-- Witness for C8_FSOT_monotone: the concrete footing `C3inp` with widths
1 m ≤ 1.5 m. -/
theorem C8_FSOT_monotone_witness :
    (1 : ℚ) ≤ 3/2 ∧ (0 : ℚ) ≤ 1
      ∧ (evalFoundation C3inp 1 1 1).FS_OT ≤ (evalFoundation C3inp (3/2) 1 1).FS_OT :=
  ⟨by norm_num, by norm_num,
    C8_FSOT_monotone C3inp 1 (3/2) 1 1 (by norm_num) (by norm_num) (by norm_num)
      (by norm_num [C3inp]) (by norm_num [C3inp]) (by norm_num [C3inp])
      (by norm_num [C3inp])⟩

/-- Claim C7, code bug: importing a configuration that both selects a new
anchor (M48, enforced minimum 20·48 = 960 mm for a free-standing sign) and
carries an accepted embedment of 500 mm leaves the final accepted embedment
at 500 mm — the clamp at the end of `applyConfig` computes its minimum from
the stale pre-import anchor (M16, minimum 320 mm), so the imported value is
not re-clamped to the enforced minimum of the anchor actually selected after
the import. -/
theorem C7_code_bug :
    (applyConfigAnchors C7state C7cfg).anchor.name = 48
      ∧ (applyConfigAnchors C7state C7cfg).anchorEmbed = 500
      ∧ hefMinPick (applyConfigAnchors C7state C7cfg).signType
          (applyConfigAnchors C7state C7cfg).anchor = 960
      ∧ (applyConfigAnchors C7state C7cfg).anchorEmbed
          < hefMinPick (applyConfigAnchors C7state C7cfg).signType
              (applyConfigAnchors C7state C7cfg).anchor := by
  have hst : applyConfigAnchors C7state C7cfg =
      { signType := SignKind.freestanding
        anchors := []
        anchor := { name := 48, d := 48, Ta := 316000, Va := 182000,
                    minE := Option.none, minS := Option.none, hefRec := some 960 }
        anchorEmbed := 500 } := by
    simp only [applyConfigAnchors, C7state, C7cfg, ABR_ANCHORS, hefMinClamp, hefMinPick,
      orFalsy, Option.getD, List.find?, List.head?, Option.orElse]
    norm_num
  rw [hst]
  refine ⟨rfl, rfl, ?_, ?_⟩ <;> norm_num [hefMinPick]

/-- A failing candidate never changes the scan state. -/
theorem selStep_of_fail {α : Type} {pass : α → Bool} {sc : α → ℚ}
    {st : SelState α} {c : α} (hc : pass c = false) :
    selStep pass sc st c = st := by
  simp [selStep, hc]

/-- Once something was found, a candidate that does not strictly beat the
incumbent score never changes the scan state. -/
theorem selStep_of_skip {α : Type} {pass : α → Bool} {sc : α → ℚ}
    {st : SelState α} {c : α} (hf : st.found = true) (hns : ¬ sc c < st.bestScore) :
    selStep pass sc st c = st := by
  unfold selStep
  by_cases hc : pass c = true
  · rw [if_pos hc, if_neg]
    rw [hf]
    simp [hns]
  · rw [if_neg hc]

/-- A passing candidate is adopted when nothing was found yet or when it
strictly beats the incumbent score. -/
theorem selStep_of_take {α : Type} {pass : α → Bool} {sc : α → ℚ}
    {st : SelState α} {c : α} (hc : pass c = true)
    (h : st.found = false ∨ sc c < st.bestScore) :
    selStep pass sc st c = ⟨c, true, sc c⟩ := by
  unfold selStep
  rw [if_pos hc, if_pos h]

/-- Unfolding one scan step. -/
theorem selRun_cons {α : Type} (pass : α → Bool) (sc : α → ℚ)
    (st : SelState α) (c : α) (l : List α) :
    selRun pass sc st (c :: l) = selRun pass sc (selStep pass sc st c) l := rfl

/-- Characterization of the scan from a found state: either nothing passing
beats the incumbent score and the state is unchanged, or the result is the
first-enumerated passing candidate attaining the minimal score. -/
theorem selRun_found_char {α : Type} (pass : α → Bool) (sc : α → ℚ) (l : List α) :
    ∀ st : SelState α, st.found = true →
      (selRun pass sc st l = st ∧ ∀ c ∈ l, pass c = true → st.bestScore ≤ sc c)
      ∨ (∃ l1 b l2, l = l1 ++ b :: l2 ∧ pass b = true ∧ sc b < st.bestScore
          ∧ (∀ c ∈ l, pass c = true → sc b ≤ sc c)
          ∧ (∀ c ∈ l1, pass c = true → sc b < sc c)
          ∧ selRun pass sc st l = ⟨b, true, sc b⟩) := by
  induction l with
  | nil =>
    intro st hf
    exact Or.inl ⟨rfl, by simp⟩
  | cons c t ih =>
    intro st hf
    by_cases hc : pass c = true
    · by_cases himp : sc c < st.bestScore
      · have hstep : selStep pass sc st c = ⟨c, true, sc c⟩ :=
          selStep_of_take hc (Or.inr himp)
        rcases ih ⟨c, true, sc c⟩ rfl with ⟨hrun, hall⟩ |
          ⟨l1, b, l2, heq, hpb, hlt, hmin, hstrict, hrun⟩
        · refine Or.inr ⟨[], c, t, rfl, hc, himp, ?_, ?_, ?_⟩
          · intro d hd hpd
            rcases List.mem_cons.mp hd with h | hdt
            · rw [h]
            · exact hall d hdt hpd
          · intro d hd
            exact absurd hd (List.not_mem_nil d)
          · rw [selRun_cons, hstep]
            exact hrun
        · refine Or.inr ⟨c :: l1, b, l2, by rw [heq, List.cons_append], hpb, lt_trans hlt himp, ?_, ?_, ?_⟩
          · intro d hd hpd
            rcases List.mem_cons.mp hd with h | hdt
            · rw [h]
              exact le_of_lt hlt
            · exact hmin d hdt hpd
          · intro d hd hpd
            rcases List.mem_cons.mp hd with h | hdl1
            · rw [h]
              exact hlt
            · exact hstrict d hdl1 hpd
          · rw [selRun_cons, hstep]
            exact hrun
      · have hstep : selStep pass sc st c = st := selStep_of_skip hf himp
        rcases ih st hf with ⟨hrun, hall⟩ |
          ⟨l1, b, l2, heq, hpb, hlt, hmin, hstrict, hrun⟩
        · refine Or.inl ⟨?_, ?_⟩
          · rw [selRun_cons, hstep]
            exact hrun
          · intro d hd hpd
            rcases List.mem_cons.mp hd with h | hdt
            · rw [h]
              exact not_lt.mp himp
            · exact hall d hdt hpd
        · refine Or.inr ⟨c :: l1, b, l2, by rw [heq, List.cons_append], hpb, hlt, ?_, ?_, ?_⟩
          · intro d hd hpd
            rcases List.mem_cons.mp hd with h | hdt
            · rw [h]
              exact le_trans (le_of_lt hlt) (not_lt.mp himp)
            · exact hmin d hdt hpd
          · intro d hd hpd
            rcases List.mem_cons.mp hd with h | hdl1
            · rw [h]
              exact lt_of_lt_of_le hlt (not_lt.mp himp)
            · exact hstrict d hdl1 hpd
          · rw [selRun_cons, hstep]
            exact hrun
    · have hcf : pass c = false := by
        revert hc
        cases pass c <;> simp
      have hstep : selStep pass sc st c = st := selStep_of_fail hcf
      rcases ih st hf with ⟨hrun, hall⟩ |
        ⟨l1, b, l2, heq, hpb, hlt, hmin, hstrict, hrun⟩
      · refine Or.inl ⟨?_, ?_⟩
        · rw [selRun_cons, hstep]
          exact hrun
        · intro d hd hpd
          rcases List.mem_cons.mp hd with h | hdt
          · rw [h] at hpd
            exact absurd hpd hc
          · exact hall d hdt hpd
      · refine Or.inr ⟨c :: l1, b, l2, by rw [heq, List.cons_append], hpb, hlt, ?_, ?_, ?_⟩
        · intro d hd hpd
          rcases List.mem_cons.mp hd with h | hdt
          · rw [h] at hpd
            exact absurd hpd hc
          · exact hmin d hdt hpd
        · intro d hd hpd
          rcases List.mem_cons.mp hd with h | hdl1
          · rw [h] at hpd
            exact absurd hpd hc
          · exact hstrict d hdl1 hpd
        · rw [selRun_cons, hstep]
          exact hrun

/-- Characterization of the scan from a not-found state: either nothing
passes and the state is unchanged, or the result is the first-enumerated
passing candidate attaining the minimal score among all passing candidates. -/
theorem selRun_notFound_char {α : Type} (pass : α → Bool) (sc : α → ℚ) (l : List α) :
    ∀ st : SelState α, st.found = false →
      ((∀ c ∈ l, pass c = false) ∧ selRun pass sc st l = st)
      ∨ (∃ l1 b l2, l = l1 ++ b :: l2 ∧ pass b = true
          ∧ (∀ c ∈ l, pass c = true → sc b ≤ sc c)
          ∧ (∀ c ∈ l1, pass c = true → sc b < sc c)
          ∧ selRun pass sc st l = ⟨b, true, sc b⟩) := by
  induction l with
  | nil =>
    intro st hf
    exact Or.inl ⟨by simp, rfl⟩
  | cons c t ih =>
    intro st hf
    by_cases hc : pass c = true
    · have hstep : selStep pass sc st c = ⟨c, true, sc c⟩ :=
        selStep_of_take hc (Or.inl hf)
      rcases selRun_found_char pass sc t ⟨c, true, sc c⟩ rfl with ⟨hrun, hall⟩ |
        ⟨l1, b, l2, heq, hpb, hlt, hmin, hstrict, hrun⟩
      · refine Or.inr ⟨[], c, t, rfl, hc, ?_, ?_, ?_⟩
        · intro d hd hpd
          rcases List.mem_cons.mp hd with h | hdt
          · rw [h]
          · exact hall d hdt hpd
        · intro d hd
          exact absurd hd (List.not_mem_nil d)
        · rw [selRun_cons, hstep]
          exact hrun
      · refine Or.inr ⟨c :: l1, b, l2, by rw [heq, List.cons_append], hpb, ?_, ?_, ?_⟩
        · intro d hd hpd
          rcases List.mem_cons.mp hd with h | hdt
          · rw [h]
            exact le_of_lt hlt
          · exact hmin d hdt hpd
        · intro d hd hpd
          rcases List.mem_cons.mp hd with h | hdl1
          · rw [h]
            exact hlt
          · exact hstrict d hdl1 hpd
        · rw [selRun_cons, hstep]
          exact hrun
    · have hcf : pass c = false := by
        revert hc
        cases pass c <;> simp
      have hstep : selStep pass sc st c = st := selStep_of_fail hcf
      rcases ih st hf with ⟨hall, hrun⟩ |
        ⟨l1, b, l2, heq, hpb, hmin, hstrict, hrun⟩
      · refine Or.inl ⟨?_, ?_⟩
        · intro d hd
          rcases List.mem_cons.mp hd with h | hdt
          · rw [h]
            exact hcf
          · exact hall d hdt
        · rw [selRun_cons, hstep]
          exact hrun
      · refine Or.inr ⟨c :: l1, b, l2, by rw [heq, List.cons_append], hpb, ?_, ?_, ?_⟩
        · intro d hd hpd
          rcases List.mem_cons.mp hd with h | hdt
          · rw [h] at hpd
            exact absurd hpd hc
          · exact hmin d hdt hpd
        · intro d hd hpd
          rcases List.mem_cons.mp hd with h | hdl1
          · rw [h] at hpd
            exact absurd hpd hc
          · exact hstrict d hdl1 hpd
        · rw [selRun_cons, hstep]
          exact hrun

/-- A direct stay lemma: from a found state whose score no passing candidate
strictly beats, the scan returns unchanged. -/
theorem selRun_stay {α : Type} {pass : α → Bool} {sc : α → ℚ} {st : SelState α}
    {l : List α} (hf : st.found = true)
    (h : ∀ c ∈ l, pass c = true → ¬ sc c < st.bestScore) :
    selRun pass sc st l = st := by
  rcases selRun_found_char pass sc l st hf with ⟨hrun, _⟩ |
    ⟨l1, b, l2, heq, hpb, hlt, _, _, _⟩
  · exact hrun
  · exact absurd hlt (h b (by rw [heq]; exact List.mem_append_right l1 (List.mem_cons_self b l2)) hpb)

/-- Invariant of the rescue scan started from an adopted candidate: the
result is a maximizer of the score among the seed and the remaining list. -/
theorem rescRun_from_some {α : Type} (sc : α → ℚ) (l : List α) :
    ∀ b0 : α, ∃ b, l.foldl (rescStep sc) (some (b0, sc b0)) = some (b, sc b)
      ∧ (b = b0 ∨ b ∈ l) ∧ sc b0 ≤ sc b ∧ ∀ c ∈ l, sc c ≤ sc b := by
  induction l with
  | nil =>
    intro b0
    exact ⟨b0, rfl, Or.inl rfl, le_rfl, by simp⟩
  | cons c t ih =>
    intro b0
    by_cases h : sc b0 < sc c
    · have hstep : rescStep sc (some (b0, sc b0)) c = some (c, sc c) := by
        simp [rescStep, h]
      rcases ih c with ⟨b, hrun, hmem, hle, hall⟩
      refine ⟨b, ?_, ?_, le_trans (le_of_lt h) hle, ?_⟩
      · rw [List.foldl_cons, hstep]
        exact hrun
      · rcases hmem with h' | hbt
        · exact Or.inr (by rw [h']; exact List.mem_cons_self c t)
        · exact Or.inr (List.mem_cons_of_mem c hbt)
      · intro d hd
        rcases List.mem_cons.mp hd with h' | hdt
        · rw [h']
          exact hle
        · exact hall d hdt
    · have hstep : rescStep sc (some (b0, sc b0)) c = some (b0, sc b0) := by
        simp [rescStep, h]
      rcases ih b0 with ⟨b, hrun, hmem, hle, hall⟩
      refine ⟨b, ?_, ?_, hle, ?_⟩
      · rw [List.foldl_cons, hstep]
        exact hrun
      · rcases hmem with h' | hbt
        · exact Or.inl h'
        · exact Or.inr (List.mem_cons_of_mem c hbt)
      · intro d hd
        rcases List.mem_cons.mp hd with h' | hdt
        · rw [h']
          exact le_trans (not_lt.mp h) hle
        · exact hall d hdt

/-- The rescue scan of a nonempty list returns a member maximizing the
score. -/
theorem rescRun_char {α : Type} (sc : α → ℚ) (c : α) (t : List α) :
    ∃ b, rescRun sc (c :: t) = some (b, sc b) ∧ b ∈ c :: t
      ∧ ∀ d ∈ c :: t, sc d ≤ sc b := by
  have hfirst : rescStep sc Option.none c = some (c, sc c) := rfl
  rcases rescRun_from_some sc t c with ⟨b, hrun, hmem, hle, hall⟩
  refine ⟨b, ?_, ?_, ?_⟩
  · unfold rescRun
    rw [List.foldl_cons, hfirst]
    exact hrun
  · rcases hmem with h' | hbt
    · rw [h']
      exact List.mem_cons_self c t
    · exact List.mem_cons_of_mem c hbt
  · intro d hd
    rcases List.mem_cons.mp hd with h' | hdt
    · rw [h']
      exact hle
    · exact hall d hdt

/-- The rescue scan of any nonempty list returns a member maximizing the
score. -/
theorem rescRun_ne_nil {α : Type} (sc : α → ℚ) (l : List α) (hne : l ≠ []) :
    ∃ b, rescRun sc l = some (b, sc b) ∧ b ∈ l ∧ ∀ d ∈ l, sc d ≤ sc b := by
  cases l with
  | nil => exact absurd rfl hne
  | cons c t => exact rescRun_char sc c t

/-- Bounds of a grid axis value. -/
theorem mem_gridList_bounds {x start : ℚ} {n : ℕ} (h : x ∈ gridList start n) :
    start ≤ x ∧ x ≤ start + ((n : ℚ) - 1) * (5 / 100) := by
  unfold gridList at h
  rcases List.mem_map.mp h with ⟨k, hk, hx⟩
  have hkn : k < n := by simpa using hk
  have hk1 : (k : ℚ) ≤ (n : ℚ) - 1 := by
    have : (k : ℚ) + 1 ≤ (n : ℚ) := by exact_mod_cast Nat.succ_le_of_lt hkn
    linarith
  have hk0 : (0 : ℚ) ≤ (k : ℚ) := Nat.cast_nonneg k
  constructor
  · rw [← hx]
    nlinarith
  · rw [← hx]
    nlinarith

/-- Bounds of a grid candidate: `B, D ∈ [0.6, 2]`, `H ∈ [0.4, 2]`. -/
theorem mem_gridCandidates_bounds {c : ℚ × ℚ × ℚ} (h : c ∈ gridCandidates) :
    (6/10 ≤ c.1 ∧ c.1 ≤ 2) ∧ (6/10 ≤ c.2.1 ∧ c.2.1 ≤ 2)
      ∧ (4/10 ≤ c.2.2 ∧ c.2.2 ≤ 2) := by
  unfold gridCandidates at h
  rcases List.mem_flatMap.mp h with ⟨B, hB, h2⟩
  rcases List.mem_flatMap.mp h2 with ⟨D, hD, h3⟩
  rcases List.mem_map.mp h3 with ⟨H, hH, hc⟩
  have hBb := mem_gridList_bounds hB
  have hDb := mem_gridList_bounds hD
  have hHb := mem_gridList_bounds hH
  rw [← hc]
  norm_num at hBb hDb hHb ⊢
  exact ⟨⟨hBb.1, hBb.2⟩, ⟨hDb.1, hDb.2⟩, ⟨hHb.1, hHb.2⟩⟩

/-- 0.8 is on the B/D grid axis (k = 4). -/
theorem eight_tenths_mem_gridB : (8 : ℚ)/10 ∈ gridList (6/10) 29 := by
  unfold gridList
  refine List.mem_map.mpr ⟨4, ?_, ?_⟩
  · exact List.mem_range.mpr (by norm_num)
  · norm_num

/-- 0.8 is on the H grid axis (k = 8). -/
theorem eight_tenths_mem_gridH : (8 : ℚ)/10 ∈ gridList (4/10) 33 := by
  unfold gridList
  refine List.mem_map.mpr ⟨8, ?_, ?_⟩
  · exact List.mem_range.mpr (by norm_num)
  · norm_num

/-- The default seed `(0.8, 0.8, 0.8)` is itself a grid candidate. -/
theorem default_mem_gridCandidates :
    ((8 : ℚ)/10, (8 : ℚ)/10, (8 : ℚ)/10) ∈ gridCandidates := by
  unfold gridCandidates
  refine List.mem_flatMap.mpr ⟨8/10, eight_tenths_mem_gridB, ?_⟩
  refine List.mem_flatMap.mpr ⟨8/10, eight_tenths_mem_gridB, ?_⟩
  exact List.mem_map.mpr ⟨8/10, eight_tenths_mem_gridH, rfl⟩

/-- 0.6 is on the B/D grid axis (k = 0). -/
theorem six_tenths_mem_gridB : (6 : ℚ)/10 ∈ gridList (6/10) 29 := by
  unfold gridList
  refine List.mem_map.mpr ⟨0, ?_, ?_⟩
  · exact List.mem_range.mpr (by norm_num)
  · norm_num

/-- 0.4 is on the H grid axis (k = 0). -/
theorem four_tenths_mem_gridH : (4 : ℚ)/10 ∈ gridList (4/10) 33 := by
  unfold gridList
  refine List.mem_map.mpr ⟨0, ?_, ?_⟩
  · exact List.mem_range.mpr (by norm_num)
  · norm_num

/-- The candidate `(0.6, 0.6, 0.4)` is a grid candidate. -/
theorem corner_mem_gridCandidates :
    ((6 : ℚ)/10, (6 : ℚ)/10, (4 : ℚ)/10) ∈ gridCandidates := by
  unfold gridCandidates
  refine List.mem_flatMap.mpr ⟨6/10, six_tenths_mem_gridB, ?_⟩
  refine List.mem_flatMap.mpr ⟨6/10, six_tenths_mem_gridB, ?_⟩
  exact List.mem_map.mpr ⟨4/10, four_tenths_mem_gridH, rfl⟩

/-- Under the inputs `E4`, every candidate in the grid's ranges passes the
foundation check, and its effective volume is at least 2 m³ (in particular
above the VOL-mode baseline 0.512). -/
theorem E4_eval (B D H : ℚ) (hB : 6/10 ≤ B) (hB2 : B ≤ 2) (hD : 6/10 ≤ D)
    (hD2 : D ≤ 2) (hH : 4/10 ≤ H) (hH2 : H ≤ 2) :
    (evalFoundation E4 B D H).ok = true ∧ 2 ≤ (evalFoundation E4 B D H).volume := by
  have hA : fndArea E4 B D = B * 10 + D * (1 / 10) - 10 * (1 / 10) := by
    unfold fndArea
    rw [show E4.isL = true from rfl, show E4.lt1 = 10 from rfl,
      show E4.lt2 = 1/10 from rfl, if_pos rfl,
      max_eq_right (by norm_num : (0:ℚ) ≤ 10),
      max_eq_right (by norm_num : (0:ℚ) ≤ 1/10)]
    exact max_eq_left (by norm_num [eps9]; linarith)
  have hAlo : 5 ≤ fndArea E4 B D := by rw [hA]; linarith
  have hAhi : fndArea E4 B D ≤ 20 := by rw [hA]; linarith
  have hN : fndN E4 B D H = 24000 * (fndArea E4 B D * H) := by
    unfold fndN
    rw [show E4.concUnitW = 24 from rfl, show E4.soilUnitW = 18 from rfl,
      show E4.coverT = 0 from rfl, show E4.WselfPerCol = 0 from rfl]
    ring
  have hNlo : 48000 ≤ fndN E4 B D H := by rw [hN]; nlinarith
  have hNhi : fndN E4 B D H ≤ 960000 := by rw [hN]; nlinarith
  have hE : fndE E4 B D H = 0 := by
    unfold fndE
    rw [show E4.M = 0 from rfl]
    simp
  have hcon : fndContact E4 B D H = Contact.full := by
    unfold fndContact
    rw [hE, if_pos (by linarith : (0:ℚ) ≤ B / 6)]
  have hBDpos : (0:ℚ) < B * D := by nlinarith
  have hBD : max (B * D) eps9 = B * D := max_eq_left (by norm_num [eps9]; nlinarith)
  have hBmax : max B eps9 = B := max_eq_left (by norm_num [eps9]; linarith)
  have hsig : fndSigmaMax E4 B D H = some (fndN E4 B D H / (B * D)) := by
    unfold fndSigmaMax
    rw [hcon]
    simp only
    rw [hE, hBD]
    norm_num
  have hqa : qaAllowFinal E4 = 10000000 := by
    unfold qaAllowFinal qaAllowSoil qaAllowConc
    rw [show E4.gammaBearing = 1 from rfl, show E4.soilQa = 10000000 from rfl,
      show E4.Fc = 100000 from rfl,
      max_eq_left (by norm_num [eps9] : eps9 ≤ (1:ℚ))]
    rw [min_eq_left (by norm_num)]
    norm_num
  have hbear : fndBearingOK E4 B D H = true := by
    unfold fndBearingOK
    rw [hsig]
    simp only
    rw [hqa, decide_eq_true_eq, div_le_iff₀ (by norm_num : (0:ℚ) < 1000),
      div_le_iff₀ hBDpos]
    nlinarith
  have hsmin : fndSigmaMin E4 B D H = fndN E4 B D H / (B * D) := by
    unfold fndSigmaMin
    rw [hcon]
    simp only
    rw [hE, hBD]
    norm_num
  have hnoUp : fndNoUplift E4 B D H = true := by
    unfold fndNoUplift
    rw [hcon]
    simp only
    rw [decide_eq_true_eq, hsmin]
    exact div_nonneg (by linarith) (le_of_lt hBDpos)
  have hz : fndZ E4 = 0 := by
    unfold fndZ
    rw [show E4.embedDepth = 0 from rfl]
    norm_num
  have hPp : fndPp E4 D = 0 := by
    unfold fndPp fndPpRaw
    rw [hz]
    norm_num
  have hMp : fndMPassive E4 D = 0 := by
    unfold fndMPassive
    rw [hz]
    norm_num
  have hlev : fndLever E4 B D H = B / 2 := by
    unfold fndLever
    rw [hE, sub_zero]
    exact max_eq_left (by linarith)
  have hFSOT : fndFSOT E4 B D H = fndN E4 B D H * (B / 2) / eps9 := by
    unfold fndFSOT
    rw [hlev, hMp, show E4.M = 0 from rfl, add_zero, abs_zero,
      max_eq_right (le_of_lt eps9_pos)]
  have hOTOK : fndOTOK E4 B D H = true := by
    unfold fndOTOK
    rw [show E4.allowUpliftOK = false from rfl, if_neg (by simp), hnoUp,
      Bool.and_true, decide_eq_true_eq, hFSOT,
      show E4.reqFS_OT = 3/2 from rfl, le_div_iff₀ eps9_pos]
    norm_num [eps9]
    nlinarith
  have hbeff : fndBeff E4 B D H = B := by
    unfold fndBeff
    rw [hcon]
  have hfrac : fndContactFrac E4 B D H = 1 := by
    unfold fndContactFrac
    rw [if_pos (by linarith : (0:ℚ) < B), hbeff,
      div_self (by linarith : B ≠ 0)]
    norm_num
  have hSLOK : fndSLOK E4 B D H = true := by
    unfold fndSLOK fndFSSL
    rw [hfrac, hPp, show E4.mu = 1/2 from rfl, show E4.Fh = 0 from rfl,
      show E4.reqFS_SL = 3/2 from rfl, max_eq_right (le_of_lt eps9_pos),
      decide_eq_true_eq, le_div_iff₀ eps9_pos]
    norm_num [eps9]
    nlinarith
  have hok : fndOK E4 B D H = true := by
    unfold fndOK
    rw [hbear, hOTOK, hSLOK]
    rfl
  constructor
  · simpa only [evalFoundation] using hok
  · simp only [evalFoundation]
    nlinarith

/-- The effective plan area under `E4`, written out. -/
theorem E4_area_eq (B D : ℚ) (hB : 6/10 ≤ B) (hD : 6/10 ≤ D) :
    fndArea E4 B D = B * 10 + D * (1 / 10) - 10 * (1 / 10) := by
  unfold fndArea
  rw [show E4.isL = true from rfl, show E4.lt1 = 10 from rfl,
    show E4.lt2 = 1/10 from rfl, if_pos rfl,
    max_eq_right (by norm_num : (0:ℚ) ≤ 10),
    max_eq_right (by norm_num : (0:ℚ) ≤ 1/10)]
  exact max_eq_left (by norm_num [eps9]; linarith)

/-- Every grid candidate passes under `E4`. -/
theorem E4_candPass (c : ℚ × ℚ × ℚ) (hc : c ∈ gridCandidates) :
    candPass E4 c = true := by
  obtain ⟨⟨h1, h2⟩, ⟨h3, h4⟩, h5, h6⟩ := mem_gridCandidates_bounds hc
  exact (E4_eval c.1 c.2.1 c.2.2 h1 h2 h3 h4 h5 h6).1

/-- Every grid candidate's VOL-mode objective is at least 2 under `E4`. -/
theorem E4_candScore_ge (c : ℚ × ℚ × ℚ) (hc : c ∈ gridCandidates) :
    2 ≤ candScore E4 OptMode.VOL c := by
  obtain ⟨⟨h1, h2⟩, ⟨h3, h4⟩, h5, h6⟩ := mem_gridCandidates_bounds hc
  exact (E4_eval c.1 c.2.1 c.2.2 h1 h2 h3 h4 h5 h6).2

/-- The default seed passes under `E4`. -/
theorem E4_default_ok : (evalFoundation E4 (8/10) (8/10) (8/10)).ok = true :=
  (E4_eval (8/10) (8/10) (8/10) (by norm_num) (by norm_num) (by norm_num)
    (by norm_num) (by norm_num) (by norm_num)).1

/-- Under `E4` in VOL mode, the optimizer returns the default seed: every
candidate passes but none scores strictly below the literal baseline 0.512,
so the strictly-improving scan never replaces the seed. -/
theorem E4_optimize_eq :
    foundationOptimize E4 OptMode.VOL = some ⟨8/10, 8/10, 8/10, false⟩ := by
  have hrun : selRun (candPass E4) (candScore E4 OptMode.VOL)
      ⟨(8/10, 8/10, 8/10), true, baselineScore OptMode.VOL⟩ gridCandidates
      = ⟨(8/10, 8/10, 8/10), true, baselineScore OptMode.VOL⟩ :=
    selRun_stay rfl (fun c hc hpc =>
      not_lt.mpr (le_trans (by norm_num [baselineScore]) (E4_candScore_ge c hc)))
  simp only [foundationOptimize]
  rw [E4_default_ok, hrun]
  rfl

/-- Claim C4, counterexample: under the inputs `E4` in volume mode, every
grid candidate passes yet the optimizer adopts the default seed
(0.8, 0.8, 0.8) of effective volume 5.664 m³, while the passing grid
candidate (0.6, 0.6, 0.4) has the strictly smaller objective 2.024 m³ —
the adopted candidate is not one with the smallest objective value. -/
theorem C4_counterexample :
    foundationOptimize E4 OptMode.VOL = some ⟨8/10, 8/10, 8/10, false⟩
      ∧ ((6:ℚ)/10, (6:ℚ)/10, (4:ℚ)/10) ∈ gridCandidates
      ∧ candPass E4 (6/10, 6/10, 4/10) = true
      ∧ candScore E4 OptMode.VOL (6/10, 6/10, 4/10)
          < candScore E4 OptMode.VOL (8/10, 8/10, 8/10) := by
  refine ⟨E4_optimize_eq, corner_mem_gridCandidates,
    E4_candPass _ corner_mem_gridCandidates, ?_⟩
  show (evalFoundation E4 (6/10) (6/10) (4/10)).volume
      < (evalFoundation E4 (8/10) (8/10) (8/10)).volume
  simp only [evalFoundation]
  rw [E4_area_eq (6/10) (6/10) (by norm_num) (by norm_num),
    E4_area_eq (8/10) (8/10) (by norm_num) (by norm_num)]
  norm_num

/-- Claim C4, amended: the optimizer seeds its scan with the default
candidate (0.8, 0.8, 0.8), marked found only when it passes, at the literal
baseline score 88.8 (proxy mode) or 0.8³ = 0.512 (volume mode — the literal
product, not the seed's effective volume), and replaces the incumbent only on
a strictly smaller objective.  Consequently: (a) when the default passes and
no passing candidate scores strictly below the baseline, the default is
adopted even if a passing candidate has a strictly smaller objective; (b)
when some passing candidate scores strictly below the baseline, the adopted
candidate is the first-enumerated passing candidate of minimal objective
(ascending B, then D, then H); (c) likewise when the default fails and some
candidate passes; (d) when no candidate passes, a candidate maximizing the
rescue score (achievement ratio × 100000 − size penalty) is adopted and
flagged as a best-effort, non-passing result. -/
theorem C4_amended (inp : FndInputs) (mode : OptMode) :
    ((evalFoundation inp (8/10) (8/10) (8/10)).ok = true →
        (∀ c ∈ gridCandidates, candPass inp c = true →
          baselineScore mode ≤ candScore inp mode c) →
        foundationOptimize inp mode = some ⟨8/10, 8/10, 8/10, false⟩)
      ∧ ((∃ c ∈ gridCandidates, candPass inp c = true
            ∧ candScore inp mode c < baselineScore mode) →
        ∃ l1 b l2, gridCandidates = l1 ++ b :: l2 ∧ candPass inp b = true
          ∧ (∀ c ∈ gridCandidates, candPass inp c = true →
              candScore inp mode b ≤ candScore inp mode c)
          ∧ (∀ c ∈ l1, candPass inp c = true →
              candScore inp mode b < candScore inp mode c)
          ∧ foundationOptimize inp mode = some ⟨b.1, b.2.1, b.2.2, false⟩)
      ∧ ((evalFoundation inp (8/10) (8/10) (8/10)).ok = false →
        (∃ c ∈ gridCandidates, candPass inp c = true) →
        ∃ l1 b l2, gridCandidates = l1 ++ b :: l2 ∧ candPass inp b = true
          ∧ (∀ c ∈ gridCandidates, candPass inp c = true →
              candScore inp mode b ≤ candScore inp mode c)
          ∧ (∀ c ∈ l1, candPass inp c = true →
              candScore inp mode b < candScore inp mode c)
          ∧ foundationOptimize inp mode = some ⟨b.1, b.2.1, b.2.2, false⟩)
      ∧ ((∀ c ∈ gridCandidates, candPass inp c = false) →
        ∃ b ∈ gridCandidates,
          (∀ c ∈ gridCandidates, rescueScore inp mode c ≤ rescueScore inp mode b)
            ∧ foundationOptimize inp mode = some ⟨b.1, b.2.1, b.2.2, true⟩) := by
  refine ⟨?_, ?_, ?_, ?_⟩
  · intro h0 hall
    have hrun : selRun (candPass inp) (candScore inp mode)
        ⟨(8/10, 8/10, 8/10), true, baselineScore mode⟩ gridCandidates
        = ⟨(8/10, 8/10, 8/10), true, baselineScore mode⟩ :=
      selRun_stay rfl (fun c hc hpc => not_lt.mpr (hall c hc hpc))
    simp only [foundationOptimize]
    rw [h0, hrun]
    rfl
  · intro hex
    rcases hex with ⟨c0, hc0, hp0, hs0⟩
    by_cases h0 : (evalFoundation inp (8/10) (8/10) (8/10)).ok = true
    · rcases selRun_found_char (candPass inp) (candScore inp mode) gridCandidates
          ⟨(8/10, 8/10, 8/10), true, baselineScore mode⟩ rfl with
        ⟨hrun, hall⟩ | ⟨l1, b, l2, heq, hpb, hlt, hmin, hstrict, hrun⟩
      · exact absurd hs0 (not_lt.mpr (hall c0 hc0 hp0))
      · refine ⟨l1, b, l2, heq, hpb, hmin, hstrict, ?_⟩
        simp only [foundationOptimize]
        rw [h0, hrun]
        rfl
    · have h0f : (evalFoundation inp (8/10) (8/10) (8/10)).ok = false := by
        revert h0
        cases (evalFoundation inp (8/10) (8/10) (8/10)).ok <;> simp
      rcases selRun_notFound_char (candPass inp) (candScore inp mode) gridCandidates
          ⟨(8/10, 8/10, 8/10), false, baselineScore mode⟩ rfl with
        ⟨hall, hrun⟩ | ⟨l1, b, l2, heq, hpb, hmin, hstrict, hrun⟩
      · exact absurd hp0 (by rw [hall c0 hc0]; simp)
      · refine ⟨l1, b, l2, heq, hpb, hmin, hstrict, ?_⟩
        simp only [foundationOptimize]
        rw [h0f, hrun]
        rfl
  · intro h0f hex
    rcases hex with ⟨c0, hc0, hp0⟩
    rcases selRun_notFound_char (candPass inp) (candScore inp mode) gridCandidates
        ⟨(8/10, 8/10, 8/10), false, baselineScore mode⟩ rfl with
      ⟨hall, hrun⟩ | ⟨l1, b, l2, heq, hpb, hmin, hstrict, hrun⟩
    · exact absurd hp0 (by rw [hall c0 hc0]; simp)
    · refine ⟨l1, b, l2, heq, hpb, hmin, hstrict, ?_⟩
      simp only [foundationOptimize]
      rw [h0f, hrun]
      rfl
  · intro hnone
    have h0f : (evalFoundation inp (8/10) (8/10) (8/10)).ok = false :=
      hnone (8/10, 8/10, 8/10) default_mem_gridCandidates
    have hrun : selRun (candPass inp) (candScore inp mode)
        ⟨(8/10, 8/10, 8/10), false, baselineScore mode⟩ gridCandidates
        = ⟨(8/10, 8/10, 8/10), false, baselineScore mode⟩ := by
      rcases selRun_notFound_char (candPass inp) (candScore inp mode) gridCandidates
          ⟨(8/10, 8/10, 8/10), false, baselineScore mode⟩ rfl with
        ⟨_, hrun⟩ | ⟨l1, b, l2, heq, hpb, _, _, _⟩
      · exact hrun
      · exact absurd hpb (by
          rw [hnone b (by rw [heq]; exact List.mem_append_right l1 (List.mem_cons_self b l2))]
          simp)
    obtain ⟨b, hrr, hbmem, hball⟩ := rescRun_ne_nil (rescueScore inp mode)
      gridCandidates (List.ne_nil_of_mem default_mem_gridCandidates)
    refine ⟨b, hbmem, hball, ?_⟩
    simp only [foundationOptimize]
    rw [h0f, hrun]
    simp [hrr]

/-- Witness for C4_amended, case (a) at the concrete inputs `E4` in volume
mode: the default seed passes, no candidate scores below the baseline, and
the optimizer adopts the default. -/
theorem C4_amended_witness :
    (evalFoundation E4 (8/10) (8/10) (8/10)).ok = true
      ∧ foundationOptimize E4 OptMode.VOL = some ⟨8/10, 8/10, 8/10, false⟩ :=
  ⟨E4_default_ok,
    (C4_amended E4 OptMode.VOL).1 E4_default_ok
      (fun c hc hpc => le_trans (by norm_num [baselineScore]) (E4_candScore_ge c hc))⟩
